import Mathlib

/-!
Verification of the Astro-Baba chat server (deterministic daily-content
composition pipeline).

JavaScript strings are modelled as lists of characters (`JStr`); every
character appearing in the program text is in the Basic Multilingual Plane,
so `Char.toNat` coincides with the UTF-16 code unit returned by
`String.charCodeAt`.  32-bit unsigned arithmetic (`>>> 0`, `Math.imul`) is
modelled as arithmetic modulo `2 ^ 32`.
-/

namespace AstroBaba

/-- JavaScript string, as its list of UTF-16 code points. -/
abbrev JStr := List Char

/-- Shorthand turning a Lean string literal into a `JStr`. -/
def str (s : String) : JStr := s.data

/-- `2 ^ 32`, the modulus of JavaScript 32-bit unsigned arithmetic. -/
abbrev M32 : Nat := 4294967296

/-- `hashCode` from `agents/utils.js`: FNV-1a-style folding hash.
`h = 2166136261; for c in s { h ^= c.charCode; h = Math.imul(h, 16777619) }; h >>> 0`.
`Math.imul` keeps the low 32 bits, so the whole loop is arithmetic mod `2^32`. -/
def hashCode (s : JStr) : Nat :=
  s.foldl (fun h c => ((Nat.xor h c.toNat) * 16777619) % M32) 2166136261

/-- `pick(arr, seed)` from `agents/utils.js`:
`arr[arr.length ? (seed % arr.length) : 0]`.  An out-of-range access
(empty array) yields `undefined`, modelled by the default element. -/
def pick [Inhabited α] (arr : List α) (seed : Nat) : α :=
  arr.getD (seed % arr.length) default

/-- One step of the LCG used by `pickN` in `agents/utils.js`:
`k = (k * 1664525 + 1013904223) >>> 0`. -/
def lcgStep (k : Nat) : Nat := (k * 1664525 + 1013904223) % M32

/-- The index-collecting loop of `pickN` (`agents/utils.js`).  The JS `while`
loop keeps a `Set` of used indices and an output array filled with
`arr[idx]` in the same order, advancing the LCG each iteration; `acc` is
that insertion-ordered index set.  The loop is modelled with explicit fuel;
`pickNIdxAux_fuel_stable` below shows that `M32` fuel already lets the loop
run to completion, so the fuel is not observable. -/
def pickNIdxAux (len target : Nat) : Nat → Nat → List Nat → List Nat
  | 0, _, acc => acc
  | fuel + 1, k, acc =>
    if acc.length < target then
      pickNIdxAux len target fuel (lcgStep k)
        (if k % len ∈ acc then acc else acc ++ [k % len])
    else acc

/-- `pickN(arr, n, seed)` from `agents/utils.js`: collects
`min(n, arr.length)` distinct indices by walking the LCG from `seed >>> 0`
and skipping already-chosen indices, returning the corresponding elements
in first-hit order. -/
def pickN [Inhabited α] (arr : List α) (n : Nat) (seed : Nat) : List α :=
  (pickNIdxAux arr.length (min n arr.length) M32 (seed % M32) []).map
    (fun i => arr.getD i default)

/-- The twelve canonical zodiac identifiers (`order` in `signIndex`,
`SIGNS` in the server variants). -/
def SIGNS : List JStr :=
  [str "aries", str "taurus", str "gemini", str "cancer", str "leo",
   str "virgo", str "libra", str "scorpio", str "sagittarius",
   str "capricorn", str "aquarius", str "pisces"]

/-- ASCII lower-casing of one character, the effect of
`String.toLowerCase` on the characters actually used by the program. -/
def lowerChar (c : Char) : Char :=
  if 'A' ≤ c ∧ c ≤ 'Z' then Char.ofNat (c.toNat + 32) else c

/-- `String(sign).toLowerCase()` on the ASCII sign names. -/
def toLowerJs (s : JStr) : JStr := s.map lowerChar

/-- `signIndex` from `agents/utils.js`: position of the lower-cased sign in
canonical zodiac order, with `indexOf === -1` mapped to `0`. -/
def signIndex (sign : JStr) : Nat :=
  match SIGNS.indexOf? (toLowerJs sign) with
  | some i => i
  | none => 0

/-- `LEADS` from `agents/variety.js`: the fixed pool of thematic opening
lines. -/
def LEADS : List JStr :=
  [str "Today favors Momentum with crisp first steps. Your natural drive works best when anchored to one clear priority before noon.",
   str "Today favors Clarity & Centering with a clean first move.",
   str "Today favors Grounded Focus — fewer tabs, deeper attention.",
   str "Today favors Listening & Patience — let inputs shape the next step.",
   str "Today favors Strategic Planning — sketch the next 3–6 months.",
   str "Today favors Relationship Warmth — short honest check-ins go far.",
   str "Today favors Pragmatic Care — body, sleep, budgeting, tiny wins.",
   str "Today favors Creative Spark — test a playful idea quickly.",
   str "Today favors Learning — one micro-skill compounds quietly.",
   str "Today favors Renewal & Cleanup — small resets make room for growth.",
   str "Today favors Courageous Outreach — send that message/pitch.",
   str "Today favors Stewardship & Savings — tighten one small leak.",
   str "Today favors Health & Balance — pace yourself and hydrate."]

/-- `OPP_POOL` from `agents/variety.js`: rotating opportunity bullets. -/
def OPP_POOL : List JStr :=
  [str "Ship one starter task before lunch to unlock afternoon flow.",
   str "Touch base with a senior/mentor for a 30-sec checkpoint.",
   str "Draft a quick 3–6-month outline so today fits a bigger arc.",
   str "Do a 10-minute inbox trim to lower noise.",
   str "Have one honest check-in with a key person.",
   str "Make a tiny improvement to your budgeting/saving.",
   str "Invest 20 minutes in a health micro-habit.",
   str "Journal one page to clear mental fog.",
   str "Learn one micro-skill you’ll reuse this week.",
   str "Polish one thing already working instead of adding new."]

/-- `CAUT_POOL` from `agents/variety.js`: rotating caution bullets. -/
def CAUT_POOL : List JStr :=
  [str "Don’t accept every request — protect a 2-hour deep-work block.",
   str "Skip unplanned purchases sparked by mood.",
   str "Avoid promising timelines you haven’t pressure-tested.",
   str "Don’t overfill the calendar — leave white space.",
   str "Limit multitasking during crucial work.",
   str "Avoid late-night screens if you need an early start.",
   str "Don’t let perfect kill good — ship version one.",
   str "Beware emotional emails; sleep on them."]

/-- `REMEDY_MAP` from `agents/variety.js`: one remedy per weekday (0–6). -/
def REMEDY_MAP : List JStr :=
  [str "At sunrise, face east and offer gratitude to the Sun; keep 2 minutes of stillness.",
   str "At dusk, light a diya and chant “Om Namah Shivaya” 11×.",
   str "In the evening, recite Hanuman Chalisa once; offer a little sesame oil.",
   str "Before work, chant “Om Gam Ganapataye” 21× for obstacle clearing.",
   str "At sunset, read a few names from Vishnu Sahasranama; offer chana dal & turmeric.",
   str "Light a pleasant fragrance; recite Sri Suktam or express gratitude for sufficiency.",
   str "At sunset, chant Hanuman Chalisa; keep conduct calm and fair."]

/-- Output record of `varietyAgent` (`agents/variety.js`). -/
structure VarietyOut where
  themeLead : JStr
  opportunities : List JStr
  cautions : List JStr
  remedy : JStr
  deriving Repr, DecidableEq

/-- `varietyAgent({sign, seed, weekdayIndex})` from `agents/variety.js`:
lead via `pick(LEADS, seed + signIndex(sign)*7)`, 3+3 bullets via
`pickN(pool, 3, seed + 101)` / `pickN(pool, 3, seed + 211)`, remedy from the
weekday table (`REMEDY_MAP[weekdayIndex] || REMEDY_MAP[0]`). -/
def varietyAgent (sign : JStr) (seed : Nat) (weekdayIndex : Nat) : VarietyOut :=
  { themeLead := pick LEADS (seed + signIndex sign * 7)
    opportunities := pickN OPP_POOL 3 (seed + 101)
    cautions := pickN CAUT_POOL 3 (seed + 211)
    remedy := (REMEDY_MAP.get? weekdayIndex).getD (REMEDY_MAP.getD 0 []) }

/-- `COLORS_EN` from `agents/fortuneLine.js`. -/
def COLORS_EN : List JStr :=
  [str "saffron", str "leaf green", str "amber", str "turquoise", str "coral",
   str "royal blue", str "maroon", str "violet", str "silver", str "teal",
   str "indigo", str "crimson", str "pearl white", str "charcoal"]

/-- `COLORS_HI` from `agents/fortuneLine.js` (English colour → Hindi). -/
def COLORS_HI : List (JStr × JStr) :=
  [(str "saffron", str "केसरिया"), (str "leaf green", str "पत्तियों जैसा हरा"),
   (str "amber", str "अम्बर"), (str "turquoise", str "फ़िरोज़ी"),
   (str "coral", str "मूंगा"), (str "royal blue", str "रॉयल ब्लू"),
   (str "maroon", str "मरून"), (str "violet", str "बैंगनी"),
   (str "silver", str "चांदी"), (str "teal", str "टील"),
   (str "indigo", str "नील"), (str "crimson", str "गहरा लाल"),
   (str "pearl white", str "मोती-सा सफ़ेद"), (str "charcoal", str "गहरा स्लेटी")]

/-- Decimal rendering of a number, as JS template interpolation does. -/
def natStr (n : Nat) : JStr := (toString n).data

/-- Output record of `fortuneLineAgent` (`agents/fortuneLine.js`). -/
structure FortuneOut where
  luckyNumber : Nat
  luckyColor : JStr
  luckyLine : JStr
  deriving Repr, DecidableEq

/-- `fortuneLineAgent({sign, ist, seed, lang})` from `agents/fortuneLine.js`.
`dayOfMonth` is `ist.getDate()` (day of month of the IST-shifted date).
`luckyNumber = ((ist.getDate() + signIndex(sign)) % 9) + 1`;
`colorEn = pick(COLORS_EN, seed + 17)`; `colorHi = COLORS_HI[colorEn] || colorEn`. -/
def fortuneLineAgent (sign : JStr) (dayOfMonth : Nat) (seed : Nat)
    (lang : JStr) : FortuneOut :=
  let luckyNumber := ((dayOfMonth + signIndex sign) % 9) + 1
  let colorEn := pick COLORS_EN (seed + 17)
  let colorHi := ((COLORS_HI.lookup colorEn).getD colorEn)
  let luckyLine :=
    if lang = str "hi" then
      str "भाग्यशाली रंग: " ++ colorHi ++ str "   भाग्यशाली अंक: " ++
        natStr luckyNumber ++
        str ". महत्वपूर्ण कार्यों हेतु अभिजीत मुहूर्त का उपयोग करें; नई शुरुआत के लिए राहु काल से बचें।"
    else
      str "Lucky color: " ++ colorEn ++ str "   Lucky number: " ++
        natStr luckyNumber ++
        str ". Use Abhijit Muhurat for key actions; avoid Rahu Kaal for fresh launches."
  { luckyNumber := luckyNumber
    luckyColor := if lang = str "hi" then colorHi else colorEn
    luckyLine := luckyLine }

/-- `QUOTES` from `agents/quoteMood.js`. -/
def QUOTES : List JStr :=
  [str "“What you do every day matters more than what you do once in a while.” — Gretchen Rubin",
   str "“The best way out is always through.” — Robert Frost",
   str "“Act as if what you do makes a difference. It does.” — William James",
   str "“Energy flows where attention goes.” — Tony Robbins",
   str "“Small deeds done are better than great deeds planned.” — Peter Marshall",
   str "“Simplicity is the ultimate sophistication.” — Leonardo da Vinci",
   str "“Well done is better than well said.” — Benjamin Franklin"]

/-- `AFFIRMATIONS` from `agents/quoteMood.js`. -/
def AFFIRMATIONS : List JStr :=
  [str "I move with calm focus and steady courage.",
   str "I choose clarity, kindness, and consistent effort.",
   str "I honour my energy and channel it wisely.",
   str "I welcome good opportunities and act with grace.",
   str "I am disciplined, patient, and quietly powerful.",
   str "I make small steps that compound into big gains."]

/-- `MOODS` from `agents/quoteMood.js`. -/
def MOODS : List JStr :=
  [str "Rise & shine — keep your heart light.",
   str "Center and breathe — pace the day gently.",
   str "Ground and glow — steady beats flashy.",
   str "Open and kind — your warmth attracts support.",
   str "Calm and clear — pick one thing and finish it."]

/-- JS `ToInt32` of a value already reduced mod `2^32` (used by `seed >> 5`). -/
def toInt32 (n : Nat) : Int :=
  if n < 2147483648 then (n : Int) else (n : Int) - (M32 : Int)

/-- Output record of `quoteMoodAgent` (`agents/quoteMood.js`). -/
structure QuoteMoodOut where
  quote : JStr
  affirmation : JStr
  mood : JStr
  waterGlasses : Int
  deriving Repr, DecidableEq

/-- `quoteMoodAgent(seed)` from `agents/quoteMood.js`.  `seed >> 5` is a JS
signed 32-bit arithmetic shift (floor division by 32 of the `ToInt32`
image) and `%` is the JS remainder, which keeps the dividend sign. -/
def quoteMoodAgent (seed : Nat) : QuoteMoodOut :=
  { quote := pick QUOTES (seed + 31)
    affirmation := pick AFFIRMATIONS (seed + 63)
    mood := pick MOODS (seed + 95)
    waterGlasses := 8 + Int.tmod ((toInt32 (seed % M32)).fdiv 32) 5 }

/-- One language's entry of `DOW_INFO` (`agents/dayDeity.js`). -/
structure DeityInfo where
  name : JStr
  pair : JStr
  ritual : JStr
  deriving Repr, DecidableEq

/-- `DOW_INFO` from `agents/dayDeity.js` (weekday 0–6, `(en, hi)` pairs). -/
def DOW_INFO : List (DeityInfo × DeityInfo) :=
  [(⟨str "Sunday", str "Surya/Aditya", str "Recite Aditya Hridayam; offer red flowers."⟩,
    ⟨str "रविवार", str "सूर्य/आदित्य", str "आदित्य हृदय स्तोत्र; लाल पुष्प अर्पित करें।"⟩),
   (⟨str "Monday", str "Shiva/Som", str "Chant “Om Namah Shivaya”; offer white rice or milk."⟩,
    ⟨str "सोमवार", str "शिव/सोम", str "“ॐ नमः शिवाय” जप; चावल/दूध अर्पित करें।"⟩),
   (⟨str "Tuesday", str "Hanuman/Mangal", str "Recite Hanuman Chalisa; offer sindoor & jaggery."⟩,
    ⟨str "मंगलवार", str "हनुमान/मंगल", str "हनुमान चालीसा; सिंदूर व गुड़ अर्पित करें।"⟩),
   (⟨str "Wednesday", str "Ganesha/Budh", str "Chant “Om Gam Ganapataye”; offer green moong."⟩,
    ⟨str "बुधवार", str "गणेश/बुध", str "“ॐ गं गणपतये नमः”; हरी मूंग अर्पित करें।"⟩),
   (⟨str "Thursday", str "Vishnu/Brihaspati", str "Recite Vishnu Sahasranama; offer chana dal & turmeric."⟩,
    ⟨str "गुरुवार", str "विष्णु/बृहस्पति", str "विष्णु सहस्रनाम; चना दाल व हल्दी अर्पित करें।"⟩),
   (⟨str "Friday", str "Lakshmi/Shukra", str "Recite Sri Suktam; offer white sweets & fragrance."⟩,
    ⟨str "शुक्रवार", str "लक्ष्मी/शुक्र", str "श्री सूक्त; सफ़ेद मिष्ठान व सुगंध अर्पित करें।"⟩),
   (⟨str "Saturday", str "Shani/Hanuman", str "Chant Hanuman Chalisa; offer sesame oil & black til."⟩,
    ⟨str "शनिवार", str "शनि/हनुमान", str "हनुमान चालीसा; तिल-तेल व काला तिल अर्पित करें।"⟩)]

instance : Inhabited DeityInfo := ⟨⟨[], [], []⟩⟩

/-- `dayDeityAgent(weekdayIndex, lang)` from `agents/dayDeity.js`:
`DOW_INFO[weekdayIndex] || DOW_INFO[0]`, then the `lang` side. -/
def dayDeityAgent (weekdayIndex : Nat) (lang : JStr) : DeityInfo :=
  let info := (DOW_INFO.get? weekdayIndex).getD (DOW_INFO.getD 0 default)
  if lang = str "hi" then info.2 else info.1

/-- The four named Vedic time windows; in the JS objects a missing weekday
key yields `undefined`, modelled by `Option`. -/
structure VedicSlots where
  rahuKaal : Option JStr
  yamaganda : Option JStr
  gulikaKaal : Option JStr
  abhijitMuhurat : Option JStr
  deriving Repr, DecidableEq

/-- `approxVedicSlots12h(weekday)` from `server.js` (lines 284–299):
per-weekday object lookups for Rahu Kaal, Yamaganda and Gulika Kaal, and
the constant Abhijit Muhurat window. -/
def approxVedicSlots12h (weekday : Nat) : VedicSlots :=
  let rahu := [(0, str "16:30–18:00"), (1, str "07:30–09:00"), (2, str "15:00–16:30"),
               (3, str "12:00–13:30"), (4, str "13:30–15:00"), (5, str "10:30–12:00"),
               (6, str "09:00–10:30")]
  let yama := [(0, str "12:00–13:30"), (1, str "10:30–12:00"), (2, str "09:00–10:30"),
               (3, str "07:30–09:00"), (4, str "06:00–07:30"), (5, str "15:00–16:30"),
               (6, str "13:30–15:00")]
  let guli := [(0, str "15:00–16:30"), (1, str "13:30–15:00"), (2, str "12:00–13:30"),
               (3, str "10:30–12:00"), (4, str "09:00–10:30"), (5, str "07:30–09:00"),
               (6, str "06:00–07:30")]
  { rahuKaal := rahu.lookup weekday
    yamaganda := yama.lookup weekday
    gulikaKaal := guli.lookup weekday
    abhijitMuhurat := some (str "12:05–12:52") }

/-- `vedicTimesForDayIndex(dayIndex)` from the earlier server variant
(`src/unnamed/part_002`, lines 45–65): the same tables as arrays indexed by
`0=Sun..6=Sat`, with the constant `abhijit`. -/
def vedicTimesForDayIndex (dayIndex : Nat) : VedicSlots :=
  let rahu := [str "16:30–18:00", str "07:30–09:00", str "15:00–16:30",
               str "12:00–13:30", str "13:30–15:00", str "10:30–12:00",
               str "09:00–10:30"]
  let yama := [str "12:00–13:30", str "10:30–12:00", str "09:00–10:30",
               str "07:30–09:00", str "06:00–07:30", str "15:00–16:30",
               str "13:30–15:00"]
  let guli := [str "15:00–16:30", str "13:30–15:00", str "12:00–13:30",
               str "10:30–12:00", str "09:00–10:30", str "07:30–09:00",
               str "06:00–07:30"]
  { rahuKaal := rahu.get? dayIndex
    yamaganda := yama.get? dayIndex
    gulikaKaal := guli.get? dayIndex
    abhijitMuhurat := some (str "12:05–12:52") }

/-- `user` object of `specialDayAgent` / `composeDaily` (only the fields the
agent reads). -/
structure UserProfile where
  name : Option JStr
  dob : Option JStr
  deriving Repr, DecidableEq

/-- `FIXED_DAYS` from `agents/specialDay.js` (`src/unnamed/part_012`):
fixed-date observances keyed `"MM-DD"`, with `(title, line)` per language. -/
def FIXED_DAYS : List (JStr × ((JStr × JStr) × (JStr × JStr))) :=
  [(str "01-01", ((str "New Year’s Day", str "Fresh starts and clean intentions."),
                  (str "नववर्ष", str "नए संकल्प और शुभ आरंभ।"))),
   (str "01-26", ((str "Republic Day (India)", str "Honour unity and civic virtue."),
                  (str "गणतंत्र दिवस", str "एकता और नागरिक धर्म का मान।"))),
   (str "08-15", ((str "Independence Day (India)", str "Gratitude for freedom; act with responsibility."),
                  (str "स्वतंत्रता दिवस", str "स्वाधीनता का आभार; उत्तरदायित्व से कार्य करें।"))),
   (str "10-02", ((str "Gandhi Jayanti", str "Simple living, high thinking—practice ahimsa today."),
                  (str "गाँधी जयंती", str "सादा जीवन, उच्च विचार—अहिंसा का अभ्यास।"))),
   (str "12-25", ((str "Christmas", str "Peace and goodwill to all."),
                  (str "क्रिसमस", str "शांति और सद्भावना।")))]

/-- The `"MM-DD"` key `mm + '-' + dd`. -/
def mdKey (mm dd : JStr) : JStr := mm ++ str "-" ++ dd

/-- `String(n).padStart(2, '0')` for the month/day numbers. -/
def pad2 (n : Nat) : JStr :=
  let s := natStr n
  if s.length < 2 then '0' :: s else s

/-- The birthday branch of `specialDayAgent`: split `user.dob` on `'-'`;
when it has at least 3 parts and parts 1 and 2 equal today's padded
month/day, produce the localized birthday message. -/
def birthdayMsg (user : Option UserProfile) (mm dd : JStr) (lang : JStr) :
    Option JStr :=
  match user with
  | none => none
  | some u =>
    match u.dob with
    | none => none
    | some dob =>
      let parts := dob.splitOn '-'
      if h : 3 ≤ parts.length then
        let m2 := parts.get ⟨1, by omega⟩
        let d2 := parts.get ⟨2, by omega⟩
        if m2 = mm ∧ d2 = dd then
          some (if lang = str "hi" then
              str "जन्मदिन की हार्दिक शुभकामनाएँ" ++
                (match u.name with
                 | some n => str " " ++ n
                 | none => []) ++
                str "! ईश्वर आपको स्वास्थ्य, समृद्धि और सौभाग्य दे।"
            else
              str "Birthday blessings" ++
                (match u.name with
                 | some n => str ", " ++ n
                 | none => []) ++
                str "! Wishing you health, prosperity, and grace.")
        else none
      else none

/-- An observance entry of the special-day result. -/
structure Observance where
  title : JStr
  line : JStr
  deriving Repr, DecidableEq

/-- The combined special-day object. -/
structure SpecialDay where
  title : JStr
  birthday : Option JStr
  observance : Option Observance
  deriving Repr, DecidableEq

/-- `specialDayAgent({now, lang, user})` from `agents/specialDay.js`
(`src/unnamed/part_012`).  `month`/`day` are `ist.getMonth()+1` and
`ist.getDate()` of the IST-shifted `now`.  Returns `null` when neither a
birthday nor a fixed observance matches, otherwise one combined object. -/
def specialDayAgent (month day : Nat) (lang : JStr)
    (user : Option UserProfile) : Option SpecialDay :=
  let mm := pad2 month
  let dd := pad2 day
  let key := mdKey mm dd
  let birthday := birthdayMsg user mm dd lang
  let fixedMsg := (FIXED_DAYS.lookup key).map
    (fun p => if lang = str "hi" then p.2 else p.1)
  if birthday.isNone && fixedMsg.isNone then none
  else some
    { title := if lang = str "hi" then str "विशेष दिवस" else str "Special Day"
      birthday := birthday
      observance := fixedMsg.map (fun p => ⟨p.1, p.2⟩) }

/-- Whitespace for the purposes of JS `trim()` / `\s` (the ASCII whitespace
plus NBSP; sufficient for every string the program handles). -/
def isJsSpace (c : Char) : Bool :=
  c = ' ' || c = '\t' || c = '\n' || c = '\r' ||
    c = Char.ofNat 11 || c = Char.ofNat 12 || c = Char.ofNat 160

/-- JS `String.trim()`. -/
def jsTrim (s : JStr) : JStr :=
  ((s.dropWhile isJsSpace).reverse.dropWhile isJsSpace).reverse

/-- `isEmpty` from `agents/translate.js`:
`s == null || String(s).trim().length === 0` (on an actual string). -/
def isEmptyJs (s : JStr) : Bool := (jsTrim s).isEmpty

/-- `hasDevanagari` from `agents/translate.js`: `/[ऀ-ॿ]/.test(s)`. -/
def hasDevanagari (s : JStr) : Bool :=
  s.any (fun c => 2304 ≤ c.toNat && c.toNat ≤ 2431)

/-- Outcome of the external text-completion call (`fetch` to the completion
endpoint), as observed by the adapter. -/
inductive ExtOutcome where
  /-- `resp.ok` with `data?.choices?.[0]?.message?.content` (before `trim`);
  `none` when the field is absent from the response JSON. -/
  | ok (content : Option JStr)
  /-- `!resp.ok` (non-success HTTP status, e.g. 500). -/
  | httpError
  /-- `fetch` (or JSON parsing) threw: network error, malformed body. -/
  | thrown
  deriving Repr, DecidableEq

/-- `ext` represents a failed external call (no usable completion). -/
def ExtOutcome.isFailure : ExtOutcome → Bool
  | .ok none => true
  | .ok (some _) => false
  | .httpError => true
  | .thrown => true

/-- First `translateAgent` variant of `agents/translate.js` (lines 18–61):
early-outs for empty text, non-Hindi targets, already-Devanagari text and a
missing API key; on `resp.ok` takes the trimmed completion content (falling
back to the input when empty), and returns the input on any HTTP error or
thrown exception (the surrounding `try`/`catch`). -/
def translateAgentV1 (apiKey : Option JStr) (ext : ExtOutcome) (text : JStr)
    (tgt : JStr) : JStr :=
  if isEmptyJs text then text
  else if tgt ≠ str "hi" then text
  else if hasDevanagari text then text
  else
    match apiKey with
    | none => text
    | some _ =>
      match ext with
      | .httpError => text
      | .thrown => text
      | .ok content =>
        match content.map jsTrim with
        | none => text
        | some o => if o.isEmpty then text else o

/-- Result of `policyAgent(lang)` (`src/unnamed/part_000`). -/
structure PolicyOut where
  disclaimer : JStr
  thanks : JStr
  footerBrand : JStr
  deriving Repr, DecidableEq

/-- `policyAgent(lang)` from `src/unnamed/part_000`: the localized
disclaimer and thanks lines plus the constant brand footer. -/
def policyAgent (lang : JStr) : PolicyOut :=
  { disclaimer :=
      if lang = str "hi" then
        str "यह रिपोर्ट चिंतनशील ज्योतिषीय अंतर्दृष्टि और मान्यताएँ प्रस्तुत करती है। इसे सहायक मार्गदर्शन समझें, अंतिम भविष्यवाणी नहीं।"
      else
        str "Your report offers reflective astrological insights and beliefs. Treat it as supportive guidance, not an absolute prediction."
    thanks :=
      if lang = str "hi" then str "धन्यवाद — टीम Astro-Baba.com"
      else str "Thank you — Team Astro-Baba.com"
    footerBrand := str "Astro-Baba.com" }

/-- `toISTParts(now)` output as consumed by `composeDaily`: the IST calendar
date string `YYYY-MM-DD`, its month and day-of-month numbers and the
weekday index (`0=Sun..6=Sat`).  The conversion itself
(`Intl.DateTimeFormat` with `Asia/Kolkata`, or the fixed `+05:30` offset
fallback) is a pure function of the instant. -/
structure ISTParts where
  dateStr : JStr
  month : Nat
  day : Nat
  weekdayIndex : Nat
  deriving Repr, DecidableEq

/-- Fixed per-process collaborators of `composeDaily` that are not part of
the compositional core: the (trimmed) API key, the outcome of any external
call, `panchangAgent()` (module absent from the provided sources), the
`Intl`-based time/header formatters, and the `cleanHi` substitution chain
of `server.js` (a fixed pure chain of regex replacements, abstracted as a
function).  All are pure values/functions; the composition claims hold for
every choice of them. -/
structure ComposeEnv where
  apiKey : Option JStr
  ext : ExtOutcome
  panchang : VedicSlots
  timeFmt : JStr → JStr
  dayHeaderFor : JStr → JStr
  cleanHiFn : JStr → JStr

/-- `ZODIAC_HI` from `server.js`. -/
def ZODIAC_HI : List (JStr × JStr) :=
  [(str "aries", str "मेष"), (str "taurus", str "वृषभ"),
   (str "gemini", str "मिथुन"), (str "cancer", str "कर्क"),
   (str "leo", str "सिंह"), (str "virgo", str "कन्या"),
   (str "libra", str "तुला"), (str "scorpio", str "वृश्चिक"),
   (str "sagittarius", str "धनु"), (str "capricorn", str "मकर"),
   (str "aquarius", str "कुंभ"), (str "pisces", str "मीन")]

/-- ASCII upper-casing of one character (`charAt(0).toUpperCase()`). -/
def upperChar (c : Char) : Char :=
  if 'a' ≤ c ∧ c ≤ 'z' then Char.ofNat (c.toNat - 32) else c

/-- `capSign` from `agents/utils.js`: the capitalization map over the 12
signs, else first-letter upper-casing. -/
def capSign (sign : JStr) : JStr :=
  let s := toLowerJs sign
  match SIGNS.indexOf? s with
  | some _ =>
    match s with
    | [] => []
    | c :: rest => upperChar c :: rest
  | none =>
    match s with
    | [] => []
    | c :: rest => upperChar c :: rest

/-- `signDisplay(sign, lang)` from `server.js`: Hindi zodiac label with
`capSign` fallback. -/
def signDisplay (sign : JStr) (lang : JStr) : JStr :=
  let s := toLowerJs sign
  if lang = str "hi" then (ZODIAC_HI.lookup s).getD (capSign s)
  else capSign s

/-- `getVedicNames(lang)` from `server.js`. -/
structure VedicNames where
  rahuKaal : JStr
  yamaganda : JStr
  gulikaKaal : JStr
  abhijitMuhurat : JStr
  deriving Repr, DecidableEq

/-- `getVedicNames(lang)` from `server.js` (localized labels). -/
def getVedicNames (lang : JStr) : VedicNames :=
  if lang = str "hi" then
    ⟨str "राहु काल", str "यमगण्ड", str "गुलिक काल", str "अभिजीत मुहूर्त"⟩
  else
    ⟨str "Rahu Kaal", str "Yamaganda", str "Gulika Kaal", str "Abhijit Muhurat"⟩

/-- One entry of the `vedicList` array in the daily record. -/
structure VedicItem where
  key : JStr
  label : JStr
  value : Option JStr
  deriving Repr, DecidableEq

/-- `greeting(lang)` from `agents/format.js`. -/
def greeting (lang : JStr) : JStr :=
  if lang = str "hi" then str "नमस्ते जी," else str "Namaste ji,"

/-- `deitySentenceParts` of `formatAgent` (`agents/format.js`). -/
structure DeityLine where
  pre : JStr
  bold : JStr
  post : JStr
  deriving Repr, DecidableEq

/-- The `deitySentenceParts` computation of `formatAgent`. -/
def formatDeityLine (lang : JStr) (pair : JStr) : DeityLine :=
  { pre := if lang = str "hi" then str "आज " else str "Today being "
    bold := pair
    post := if lang = str "hi" then str " दिवस है।" else str " day." }

/-- The `sections` sub-record of the daily record. -/
structure DailySections where
  opportunities : List JStr
  cautions : List JStr
  remedy : JStr
  vedicExplain : List JStr
  deriving Repr, DecidableEq

/-- `DailyContent`: the record returned by `composeDaily` (`server.js`
lines 470–566). -/
structure DailyContent where
  date : JStr
  timeIST : JStr
  lang : JStr
  sign : JStr
  signLabel : JStr
  vedicNames : VedicNames
  vedicList : List VedicItem
  headerDay : JStr
  greeting : JStr
  deityLine : DeityLine
  quote : JStr
  affirmation : JStr
  mood : JStr
  waterGlasses : Int
  themeLead : JStr
  luckyLine : JStr
  sections : DailySections
  vedic : VedicSlots
  policy : PolicyOut
  special : Option SpecialDay
  brandFooter : JStr
  text : JStr
  deriving Repr, DecidableEq

/-- `composeDaily({sign, lang, now, user})` from `server.js` (lines
470–566), with `toISTParts(now)` supplied as `parts` and the fixed
collaborators in `env`.  The `tx` helper is the Hindi-only best-effort
translation (`txOne`/`tx` in `server.js` wrapping `translateAgent`), and
for Hindi the results pass through the `cleanHi`/`cleanHiList` cleanup. -/
def composeDaily (env : ComposeEnv) (sign lang : JStr) (parts : ISTParts)
    (user : Option UserProfile) : DailyContent :=
  let s := toLowerJs sign
  let signLabel := signDisplay s lang
  let timeShort := env.timeFmt lang ++ (if lang = str "hi" then str " बजे" else str " IST")
  let monthSalt := parts.dateStr.take 7
  let seed := hashCode (monthSalt ++ str "|" ++ s ++ str "|" ++ parts.dateStr)
  let deity := dayDeityAgent parts.weekdayIndex lang
  let dayHeader := env.dayHeaderFor lang
  let panchang := env.panchang
  let variety := varietyAgent s seed parts.weekdayIndex
  let fortune := fortuneLineAgent s parts.day seed lang
  let qm := quoteMoodAgent seed
  let policy := policyAgent lang
  let special := specialDayAgent parts.month parts.day lang user
  let tx1 := fun t => if lang = str "hi" then translateAgentV1 env.apiKey env.ext t (str "hi") else t
  let txL := fun (l : List JStr) => if lang = str "hi" then l.map tx1 else l
  let clean1 := fun t => if lang = str "hi" then env.cleanHiFn t else t
  let cleanL := fun (l : List JStr) => if lang = str "hi" then l.map env.cleanHiFn else l
  let themeLead := clean1 (tx1 variety.themeLead)
  let opp := cleanL (txL variety.opportunities)
  let caut := cleanL (txL variety.cautions)
  let remedy := clean1 (tx1 variety.remedy)
  let quote := clean1 (tx1 qm.quote)
  let affirmation := clean1 (tx1 qm.affirmation)
  let mood := clean1 (tx1 qm.mood)
  let luckyLine := clean1 (tx1 fortune.luckyLine)
  let labels : JStr × JStr × JStr :=
    if lang = str "hi" then (str "अवसर", str "सावधानियाँ", str "उपाय")
    else (str "Opportunities", str "Cautions", str "Remedy")
  let vedicNames := getVedicNames lang
  let vedicList : List VedicItem :=
    [⟨str "rahuKaal", vedicNames.rahuKaal, panchang.rahuKaal⟩,
     ⟨str "yamaganda", vedicNames.yamaganda, panchang.yamaganda⟩,
     ⟨str "gulikaKaal", vedicNames.gulikaKaal, panchang.gulikaKaal⟩,
     ⟨str "abhijitMuhurat", vedicNames.abhijitMuhurat, panchang.abhijitMuhurat⟩]
  { date := parts.dateStr
    timeIST := timeShort
    lang := lang
    sign := s
    signLabel := signLabel
    vedicNames := vedicNames
    vedicList := vedicList
    headerDay := dayHeader
    greeting := greeting lang
    deityLine := formatDeityLine lang deity.pair
    quote := quote
    affirmation := affirmation
    mood := mood
    waterGlasses := qm.waterGlasses
    themeLead := themeLead
    luckyLine := luckyLine
    sections :=
      { opportunities := opp
        cautions := caut
        remedy := remedy
        vedicExplain :=
          if lang = str "hi" then
            [str "राहु काल — नई शुरुआत के लिए अनुकूल नहीं।",
             str "यमगण्ड — यात्रा/बड़ी शुरुआत से बचें।",
             str "गुलिक काल — सामान्य कार्य ठीक; नई शुरुआत टालें।",
             str "अभिजीत मुहूर्त — नई शुरुआत के लिए शुभ।"]
          else
            [str "Rahu Kaal — Not favourable for new beginnings.",
             str "Yamaganda — Avoid travel/major starts.",
             str "Gulika Kaal — Routine is fine; avoid fresh starts.",
             str "Abhijit Muhurat — Auspicious window for beginnings."] }
    vedic := panchang
    policy := policy
    special := special
    brandFooter := policy.footerBrand
    text :=
      str "**" ++ signLabel ++ str " • " ++ parts.dateStr ++ str "**\n" ++
      themeLead ++ str "\n" ++ luckyLine ++ str "\n\n" ++
      labels.1 ++ str ":\n- " ++ List.intercalate (str "\n- ") opp ++ str "\n\n" ++
      labels.2.1 ++ str ":\n- " ++ List.intercalate (str "\n- ") caut ++ str "\n\n" ++
      labels.2.2 ++ str ":\n" ++ remedy }

/-- Observable outcome of a daily JSON route handler: the HTTP status it
responds with, whether the content composer was invoked while handling the
request, and any JSON `error` message. -/
structure RouteOutcome where
  status : Nat
  composerInvoked : Bool
  errorMsg : Option JStr
  deriving Repr, DecidableEq

/-- `GET /daily` of the earlier server variant (`src/unnamed/part_002`,
lines 124–145): lower-cases `String(req.query.sign || '')`, rejects signs
outside `SIGNS` with HTTP 400 and a JSON error before any generation, and
otherwise generates/serves the daily text with HTTP 200. -/
def dailyGetHandlerPart002 (querySign : Option JStr) : RouteOutcome :=
  let sign := toLowerJs (querySign.getD (str ""))
  if sign ∈ SIGNS then
    { status := 200, composerInvoked := true, errorMsg := none }
  else
    { status := 400, composerInvoked := false,
      errorMsg := some (str "Invalid sign. Use: " ++
        List.intercalate (str ", ") SIGNS) }

/-- `GET /daily` of `server.js` (lines 656–669): lower-cases
`req.query.sign || 'aries'` and calls `composeDaily` unconditionally —
there is no sign validation, so every request (valid sign or not) reaches
the composer and is answered with HTTP 200. -/
def dailyGetHandlerServer (querySign : Option JStr) : RouteOutcome :=
  let _sign := toLowerJs (querySign.getD (str "aries"))
  { status := 200, composerInvoked := true, errorMsg := none }

/-- What reading the per-day cache file yields for the handler:
no file, a JSON-parse failure (the `catch {}`), or the parsed object with
its optional `rich` field (`parsed.rich || parsed`). -/
inductive DiskRead (V : Type) where
  | missing
  | malformed
  | ok (rich : Option V) (whole : V)

/-- `cacheKey(dateStr, sign, lang)` from `server.js`. -/
def cacheKey (dateStr sign lang : JStr) : JStr :=
  dateStr ++ str "|" ++ sign ++ str "|" ++ lang

/-- The on-disk path `data/cache/daily/<date>/<sign>.<lang>.json`. -/
def cacheFilePathOf (dateStr sign lang : JStr) : JStr :=
  str "data/cache/daily/" ++ dateStr ++ str "/" ++ sign ++ str "." ++ lang ++
    str ".json"

/-- Response of `GET /cache/daily`: a 404 miss report
`{ok:false, miss:{date, sign, lang}}` or a 200 hit payload built from the
cached value. -/
inductive CacheResp (V : Type) where
  | missResp (date sign lang : JStr)
  | hitResp (v : V)

/-- HTTP status of the `GET /cache/daily` response. -/
def CacheResp.status : CacheResp V → Nat
  | .missResp _ _ _ => 404
  | .hitResp _ => 200

/-- Result of running the `GET /cache/daily` handler: the response, the
in-memory cache map afterwards, and whether the handler invoked the
composer (its body contains no `composeDaily` call, so this is always
`false` in the embedding, mirroring the source). -/
structure CacheRouteResult (V : Type) where
  resp : CacheResp V
  memAfter : List (JStr × V)
  composerInvoked : Bool

/-- `GET /cache/daily` from `server.js` (lines 1267–1301): resolve
`sign`/`lang`/`date` (defaulting to `'aries'` / the request language / the
IST today), look the key up in the in-memory map, on a miss try the
per-day disk file (inserting `parsed.rich || parsed` into the memory map
on success), and answer 404 with a miss report or 200 with the hit.  The
handler never composes content and never writes to disk. -/
def cacheDailyGetHandler (mem : List (JStr × V))
    (disk : JStr → DiskRead V) (querySign queryDate : Option JStr)
    (lang todayDate : JStr) : CacheRouteResult V :=
  let sign := toLowerJs (querySign.getD (str "aries"))
  let date := queryDate.getD todayDate
  let key := cacheKey date sign lang
  match mem.lookup key with
  | some hit =>
    { resp := .hitResp hit, memAfter := mem, composerInvoked := false }
  | none =>
    match disk (cacheFilePathOf date sign lang) with
    | .ok rich whole =>
      let hit := rich.getD whole
      { resp := .hitResp hit, memAfter := (key, hit) :: mem,
        composerInvoked := false }
    | .missing =>
      { resp := .missResp date sign lang, memAfter := mem,
        composerInvoked := false }
    | .malformed =>
      { resp := .missResp date sign lang, memAfter := mem,
        composerInvoked := false }

/-- JS `\w` (ASCII word character), used by the `\b` boundaries of the
cleanup regexes. -/
def isWordChar (c : Char) : Bool :=
  ('a' ≤ c && c ≤ 'z') || ('A' ≤ c && c ≤ 'Z') ||
    ('0' ≤ c && c ≤ '9') || c = '_'

/-- Case-insensitive character comparison (the `/i` flag on the ASCII
patterns of the cleanup chain). -/
def ciEq (a b : Char) : Bool := lowerChar a = lowerChar b

/-- One token of a cleanup pattern: a case-insensitive literal, `\s+`,
`[- ]`, `[ \t]+` or `\n{3,}` — exactly the constructs appearing in the
`translate.js` regexes being modelled. -/
inductive PatTok where
  | lit (c : Char)
  | ws
  | dashSp
  | tabSpPlus
  | nl3plus
  deriving Repr, DecidableEq

/-- Number of characters the token sequence consumes at the head of `s`
(greedy repetition; no pattern here continues a repetition with a
character the repetition could also take). -/
def matchToks : List PatTok → JStr → Option Nat
  | [], _ => some 0
  | .lit c :: ps, x :: xs =>
    if ciEq x c then (matchToks ps xs).map (· + 1) else none
  | .lit _ :: _, [] => none
  | .dashSp :: ps, x :: xs =>
    if x = '-' || x = ' ' then (matchToks ps xs).map (· + 1) else none
  | .dashSp :: _, [] => none
  | .ws :: ps, xs =>
    let k := (xs.takeWhile isJsSpace).length
    if k = 0 then none else (matchToks ps (xs.drop k)).map (· + k)
  | .tabSpPlus :: ps, xs =>
    let k := (xs.takeWhile (fun c => c = ' ' || c = '\t')).length
    if k = 0 then none else (matchToks ps (xs.drop k)).map (· + k)
  | .nl3plus :: ps, xs =>
    let k := (xs.takeWhile (fun c => c = '\n')).length
    if k < 3 then none else (matchToks ps (xs.drop k)).map (· + k)

/-- A cleanup pattern: optional `\b` at each end around the token body. -/
structure JsPat where
  bStart : Bool
  bEnd : Bool
  toks : List PatTok

/-- Match the pattern at the current position (`prev` is the character just
before the position; `\b` holds where word-ness changes, with the string
ends counting as non-word). -/
def matchAt (p : JsPat) (prev : Option Char) (s : JStr) : Option Nat :=
  match matchToks p.toks s with
  | none => none
  | some n =>
    if n = 0 then none
    else
      let prevWord := match prev with | some c => isWordChar c | none => false
      let firstWord := match s.head? with | some c => isWordChar c | none => false
      let lastWord := match (s.take n).getLast? with | some c => isWordChar c | none => false
      let nextWord := match (s.drop n).head? with | some c => isWordChar c | none => false
      if (!p.bStart || (prevWord != firstWord)) &&
         (!p.bEnd || (lastWord != nextWord)) then some n else none

lemma matchAt_pos {p : JsPat} {prev : Option Char} {s : JStr} {n : Nat}
    (h : matchAt p prev s = some n) : 0 < n := by
  unfold matchAt at h
  rcases hm : matchToks p.toks s with _ | m <;> rw [hm] at h
  · exact absurd h (by simp)
  · by_cases h0 : m = 0
    · subst h0; simp at h
    · simp only [if_neg h0] at h
      split at h
      · cases h; omega
      · exact absurd h (by simp)

/-- `String.replace` with a global regex: scan left to right, emit the
replacement at each non-overlapping match and continue after the matched
text (the replaced text is not rescanned).  Every step consumes at least
one character of the remaining text, so `fuel = s.length` always completes
the scan (`replaceGo_fuel_irrelevant`); the fuel only makes the recursion
structural. -/
def replaceGo (p : JsPat) (repl : JStr) : Nat → Option Char → JStr → JStr
  | 0, _, s => s
  | _ + 1, _, [] => []
  | fuel + 1, prev, x :: xs =>
    match matchAt p prev (x :: xs) with
    | some n =>
      repl ++ replaceGo p repl fuel (((x :: xs).take n).getLast?)
        ((x :: xs).drop n)
    | none => x :: replaceGo p repl fuel (some x) xs

lemma replaceGo_nil (p : JsPat) (repl : JStr) (fuel : Nat)
    (prev : Option Char) : replaceGo p repl fuel prev [] = [] := by
  cases fuel <;> rfl

lemma replaceGo_fuel_irrelevant (p : JsPat) (repl : JStr) :
    ∀ (fuel fuel' : Nat) (prev : Option Char) (s : JStr),
      s.length ≤ fuel → s.length ≤ fuel' →
      replaceGo p repl fuel prev s = replaceGo p repl fuel' prev s := by
  intro fuel
  induction fuel with
  | zero =>
    intro fuel' prev s hs _
    have : s = [] := List.eq_nil_of_length_eq_zero (by omega)
    subst this
    rw [replaceGo_nil, replaceGo_nil]
  | succ f ih =>
    intro fuel' prev s hs hs'
    match s with
    | [] => rw [replaceGo_nil, replaceGo_nil]
    | x :: xs =>
      have h1 : 1 ≤ fuel' := le_trans (by simp) hs'
      obtain ⟨f', rfl⟩ : ∃ f', fuel' = f' + 1 :=
        ⟨fuel' - 1, by omega⟩
      cases hm : matchAt p prev (x :: xs) with
      | some n =>
        have hn : 0 < n := matchAt_pos hm
        have hlen : ((x :: xs).drop n).length ≤ f := by
          simp only [List.length_drop, List.length_cons]
          simp only [List.length_cons] at hs
          omega
        have hlen' : ((x :: xs).drop n).length ≤ f' := by
          simp only [List.length_drop, List.length_cons]
          simp only [List.length_cons] at hs'
          omega
        simp only [replaceGo, hm]
        rw [ih f' _ _ hlen hlen']
      | none =>
        have hlen : xs.length ≤ f := by
          simp only [List.length_cons] at hs
          omega
        have hlen' : xs.length ≤ f' := by
          simp only [List.length_cons] at hs'
          omega
        simp only [replaceGo, hm]
        rw [ih f' _ _ hlen hlen']

/-- `text.replace(pattern, repl)` for a global (and possibly
case-insensitive) pattern. -/
def jsReplaceAll (p : JsPat) (repl : JStr) (s : JStr) : JStr :=
  replaceGo p repl s.length none s

/-- Literal pattern body. -/
def litToks (s : String) : List PatTok := s.data.map PatTok.lit

/-- `tidy` from the universal `translateAgent` (`agents/translate.js`):
`\r\n → \n`, strip `[ \t]+` before newlines, collapse 3+ newlines to two,
then trim. -/
def tidy (s : JStr) : JStr :=
  jsTrim <|
    jsReplaceAll ⟨false, false, [.nl3plus]⟩ (str "\n\n") <|
      jsReplaceAll ⟨false, false, [.tabSpPlus, .lit '\n']⟩ (str "\n") <|
        jsReplaceAll ⟨false, false, [.lit '\r', .lit '\n']⟩ (str "\n") s

/-- The fixed post-hoc substitution chain of the universal `translateAgent`
(`agents/translate.js`, lines 163–173), applied to the result on **every**
path after the external call — including the fallback paths. -/
def lightCleanup (s : JStr) : JStr :=
  let s := jsReplaceAll ⟨true, true, litToks "Today favors"⟩ (str "आज अनुकूल है") s
  let s := jsReplaceAll ⟨true, true, litToks "micro" ++ [.dashSp] ++ litToks "skill"⟩ (str "सूक्ष्म कौशल") s
  let s := jsReplaceAll ⟨true, true, litToks "inbox trim"⟩ (str "इनबॉक्स साफ़") s
  let s := jsReplaceAll ⟨true, true, litToks "hydrate"⟩ (str "जल पिएँ") s
  let s := jsReplaceAll ⟨false, false, litToks "Rahu Kaal"⟩ (str "राहु काल") s
  let s := jsReplaceAll ⟨false, false, litToks "Yamaganda"⟩ (str "यमगण्ड") s
  let s := jsReplaceAll ⟨false, false, litToks "Gulika Kaal"⟩ (str "गुलिक काल") s
  let s := jsReplaceAll ⟨false, false, litToks "Abhijit Muhurat"⟩ (str "अभिजीत मुहूर्त") s
  jsReplaceAll ⟨false, false, [.ws, .lit '—', .ws]⟩ (str " — ") s

/-- The `/^[\-\*\s•.]+$/` fast-path test of the universal
`translateAgent`. -/
def punctOnly (s : JStr) : Bool :=
  !s.isEmpty &&
    s.all (fun c => c = '-' || c = '*' || c = '•' || c = '.' || isJsSpace c)

/-- The universal (caching) `translateAgent` variant of
`agents/translate.js` (lines 107–178) on a string input: pass non-Hindi
targets through, serve cache hits, short-circuit empty/punctuation-only
text, otherwise take the external completion (tidied) or fall back to the
input on HTTP error / thrown exception, and finally apply the fixed
`lightCleanup` substitutions to whatever resulted.  The surrounding
`try`/`catch` means the function never throws; totality of this
definition models that.  (The cache insertion mutates module state and is
not needed by any claim; only the returned value is modelled.) -/
def translateAgentV2 (ext : ExtOutcome) (input : JStr) (tgt : JStr)
    (cache : List (JStr × JStr)) : JStr :=
  if tgt ≠ str "hi" then input
  else
    let text := input
    let key := str "hi:" ++ text
    match cache.lookup key with
    | some v => v
    | none =>
      if (jsTrim text).isEmpty || punctOnly text then text
      else
        let translated :=
          match ext with
          | .ok content =>
            let out := content.getD []
            if out.isEmpty then text else tidy out
          | .httpError => text
          | .thrown => text
        lightCleanup translated

/-! ## Claim theorems -/

/-- A decimal digit. -/
def isDigitCh (c : Char) : Bool := '0' ≤ c && c ≤ '9'

/-- The `"HH:MM–HH:MM"` shape of a Vedic window string. -/
def isHHMMRange (s : JStr) : Bool :=
  match s with
  | [h1, h2, c1, m1, m2, dash, h3, h4, c2, m3, m4] =>
    isDigitCh h1 && isDigitCh h2 && c1 = ':' && isDigitCh m1 && isDigitCh m2 &&
      dash = '–' && isDigitCh h3 && isDigitCh h4 && c2 = ':' &&
      isDigitCh m3 && isDigitCh m4
  | _ => false

/-- C5: the lucky number of `fortuneLineAgent` equals
`((dayOfMonth + signIndex sign) % 9) + 1` and always lies in `[1, 9]`,
for every sign string, day of month, seed and language. -/
theorem fortuneLine_luckyNumber_range (sign : JStr) (dayOfMonth seed : Nat)
    (lang : JStr) :
    (fortuneLineAgent sign dayOfMonth seed lang).luckyNumber
        = (dayOfMonth + signIndex sign) % 9 + 1 ∧
    1 ≤ (fortuneLineAgent sign dayOfMonth seed lang).luckyNumber ∧
    (fortuneLineAgent sign dayOfMonth seed lang).luckyNumber ≤ 9 := by
  have hlt : (dayOfMonth + signIndex sign) % 9 < 9 :=
    Nat.mod_lt _ (by norm_num)
  refine ⟨rfl, ?_, ?_⟩
  · show 1 ≤ (dayOfMonth + signIndex sign) % 9 + 1
    omega
  · show (dayOfMonth + signIndex sign) % 9 + 1 ≤ 9
    omega

/-- C6: for every weekday index 0–6 the two Vedic-window lookups
(`approxVedicSlots12h` in `server.js` and `vedicTimesForDayIndex` in the
earlier variant) return the same fixed `"HH:MM–HH:MM"` literals from the
per-weekday tables, all four windows are defined, and the fourth window
(Abhijit Muhurat) is the same constant string on all seven weekdays. -/
theorem vedicWindows_fixed_tables :
    ∀ w : Fin 7,
      approxVedicSlots12h w.val = vedicTimesForDayIndex w.val ∧
      (approxVedicSlots12h w.val).abhijitMuhurat = some (str "12:05–12:52") ∧
      ((approxVedicSlots12h w.val).rahuKaal.map isHHMMRange = some true) ∧
      ((approxVedicSlots12h w.val).yamaganda.map isHHMMRange = some true) ∧
      ((approxVedicSlots12h w.val).gulikaKaal.map isHHMMRange = some true) ∧
      ((approxVedicSlots12h w.val).abhijitMuhurat.map isHHMMRange = some true) := by
  decide

/-- The string `composeDaily` hashes to obtain its selection seed:
`"{yearMonth}|{sign}|{dateKey}"`, with `yearMonth = dateKey.slice(0, 7)`. -/
def composeSeedInput (s dateStr : JStr) : JStr :=
  dateStr.take 7 ++ str "|" ++ s ++ str "|" ++ dateStr

/-- C2: `composeDaily` derives its selection seed as
`hashCode (yearMonth ++ "|" ++ sign ++ "|" ++ dateKey)` with `yearMonth`
the first 7 characters of the date key (witnessed by the seed feeding the
opening-line selection), and for a fixed sign the hash input distinguishes
any two date keys whose year-month prefixes differ — in particular the
same day-of-month in different calendar months. -/
theorem composeDaily_seed_monthSalted :
    (∀ (env : ComposeEnv) (sign : JStr) (parts : ISTParts)
       (user : Option UserProfile),
       (composeDaily env sign (str "en") parts user).themeLead =
         pick LEADS (hashCode (composeSeedInput (toLowerJs sign) parts.dateStr)
           + signIndex (toLowerJs sign) * 7)) ∧
    (∀ (s d₁ d₂ : JStr), 7 ≤ d₁.length → 7 ≤ d₂.length →
       d₁.take 7 ≠ d₂.take 7 →
       composeSeedInput s d₁ ≠ composeSeedInput s d₂) := by
  constructor
  · intro env sign parts user
    rfl
  · intro s d₁ d₂ h₁ h₂ hne heq
    apply hne
    have key : ∀ d : JStr, 7 ≤ d.length →
        (composeSeedInput s d).take 7 = d.take 7 := by
      intro d hd
      have hform : composeSeedInput s d =
          d.take 7 ++ (str "|" ++ s ++ (str "|" ++ d)) := by
        simp [composeSeedInput, List.append_assoc]
      have hlen : (d.take 7).length = 7 := by
        rw [List.length_take]
        omega
      rw [hform, List.take_append_eq_append_take, hlen, List.take_take]
      simp
    calc d₁.take 7 = (composeSeedInput s d₁).take 7 := (key d₁ h₁).symm
      _ = (composeSeedInput s d₂).take 7 := by rw [heq]
      _ = d₂.take 7 := key d₂ h₂

/-- Witness for `composeDaily_seed_monthSalted`: July 4th and August 4th of
2025 share the day-of-month but get different hash inputs. -/
theorem composeDaily_seed_monthSalted_witness :
    composeSeedInput (str "aries") (str "2025-07-04") ≠
      composeSeedInput (str "aries") (str "2025-08-04") :=
  composeDaily_seed_monthSalted.2 (str "aries") (str "2025-07-04")
    (str "2025-08-04") (by decide) (by decide) (by decide)

/-- C7: `specialDayAgent` returns `null` when today matches neither the
user's dob month-day nor the fixed observance table; a dob month/day match
yields an object with a non-null `birthday`; a fixed-date match without a
birthday match yields a non-null `observance` with `birthday` null.  (At
most one combined object is ever produced: the return type is an
`Option`.) -/
theorem specialDayAgent_exclusivity (month day : Nat) (lang : JStr)
    (user : Option UserProfile) :
    (birthdayMsg user (pad2 month) (pad2 day) lang = none →
      FIXED_DAYS.lookup (mdKey (pad2 month) (pad2 day)) = none →
      specialDayAgent month day lang user = none) ∧
    (∀ b, birthdayMsg user (pad2 month) (pad2 day) lang = some b →
      ∃ o, specialDayAgent month day lang user = some o ∧
        o.birthday = some b) ∧
    (birthdayMsg user (pad2 month) (pad2 day) lang = none →
      ∀ e, FIXED_DAYS.lookup (mdKey (pad2 month) (pad2 day)) = some e →
      ∃ o, specialDayAgent month day lang user = some o ∧
        o.birthday = none ∧ o.observance.isSome) := by
  refine ⟨?_, ?_, ?_⟩
  · intro hb hf
    simp [specialDayAgent, hb, hf]
  · intro b hb
    refine ⟨⟨if lang = str "hi" then str "विशेष दिवस" else str "Special Day",
             some b,
             ((FIXED_DAYS.lookup (mdKey (pad2 month) (pad2 day))).map
               (fun p => if lang = str "hi" then p.2 else p.1)).map
               (fun p => ⟨p.1, p.2⟩)⟩, ?_, rfl⟩
    simp [specialDayAgent, hb]
  · intro hb e hf
    refine ⟨⟨if lang = str "hi" then str "विशेष दिवस" else str "Special Day",
             none,
             some ⟨(if lang = str "hi" then e.2 else e.1).1,
                   (if lang = str "hi" then e.2 else e.1).2⟩⟩, ?_, rfl, rfl⟩
    simp [specialDayAgent, hb, hf]

/-- Witness for `specialDayAgent_exclusivity`, at the spec's concrete
inputs: a user with dob `1990-07-04` on July 4 gets a birthday message;
January 26 (Republic Day) with no matching dob gets an observance only;
March 14 matches neither. -/
theorem specialDayAgent_exclusivity_witness :
    (∃ o, specialDayAgent 7 4 (str "en")
        (some ⟨some (str "Asha"), some (str "1990-07-04")⟩) = some o ∧
        o.birthday = some (str "Birthday blessings, Asha! Wishing you health, prosperity, and grace.")) ∧
    (∃ o, specialDayAgent 1 26 (str "en") none = some o ∧
        o.birthday = none ∧ o.observance.isSome) ∧
    specialDayAgent 3 14 (str "en") none = none := by
  refine ⟨?_, ?_, ?_⟩
  · exact (specialDayAgent_exclusivity 7 4 (str "en")
      (some ⟨some (str "Asha"), some (str "1990-07-04")⟩)).2.1 _ (by decide)
  · exact (specialDayAgent_exclusivity 1 26 (str "en") none).2.2
      (by decide)
      ((str "Republic Day (India)", str "Honour unity and civic virtue."),
       (str "गणतंत्र दिवस", str "एकता और नागरिक धर्म का मान।"))
      (by decide)
  · exact (specialDayAgent_exclusivity 3 14 (str "en") none).1
      (by decide) (by decide)

/-- C9 counterexample: the `server.js` `GET /daily` route answers
`sign=dragon` — not one of the 12 canonical identifiers — with HTTP 200
and invokes the composer, so the claim "unknown signs get HTTP 400 and
never reach the composer" fails on the daily endpoints of `server.js`. -/
theorem dailyRoute_noValidation_counterexample :
    (dailyGetHandlerServer (some (str "dragon"))).status = 200 ∧
    (dailyGetHandlerServer (some (str "dragon"))).composerInvoked = true ∧
    ¬((dailyGetHandlerServer (some (str "dragon"))).status = 400 ∧
      (dailyGetHandlerServer (some (str "dragon"))).composerInvoked = false) := by
  decide

/-- C9 amended: the earlier server variant (`src/unnamed/part_002`) rejects
every unknown sign with HTTP 400, a JSON error message and no composer
invocation, while the `server.js` daily route performs no sign validation:
it answers every request with HTTP 200 after invoking the composer. -/
theorem dailyRoute_validation_by_variant :
    (∀ q : Option JStr, toLowerJs (q.getD (str "")) ∉ SIGNS →
      (dailyGetHandlerPart002 q).status = 400 ∧
      (dailyGetHandlerPart002 q).composerInvoked = false ∧
      (dailyGetHandlerPart002 q).errorMsg.isSome) ∧
    (∀ q : Option JStr, (dailyGetHandlerServer q).status = 200 ∧
      (dailyGetHandlerServer q).composerInvoked = true) := by
  constructor
  · intro q hq
    simp [dailyGetHandlerPart002, hq]
  · intro q
    exact ⟨rfl, rfl⟩

/-- Witness for `dailyRoute_validation_by_variant` at `sign=dragon`. -/
theorem dailyRoute_validation_by_variant_witness :
    ((dailyGetHandlerPart002 (some (str "dragon"))).status = 400 ∧
      (dailyGetHandlerPart002 (some (str "dragon"))).composerInvoked = false ∧
      (dailyGetHandlerPart002 (some (str "dragon"))).errorMsg.isSome) ∧
    ((dailyGetHandlerServer (some (str "dragon"))).status = 200 ∧
      (dailyGetHandlerServer (some (str "dragon"))).composerInvoked = true) :=
  ⟨dailyRoute_validation_by_variant.1 (some (str "dragon")) (by decide),
   dailyRoute_validation_by_variant.2 (some (str "dragon"))⟩

/-- C10: if the key `(date, sign, lang)` is in neither the in-memory map
nor the on-disk per-day file, `GET /cache/daily` responds 404 with the
miss report and leaves the memory map unchanged; the handler never invokes
the composer on any path; and on a disk-only hit it inserts
`parsed.rich || parsed` into the memory map and responds 200 with it. -/
theorem cacheDailyRoute_miss_and_diskHit (V : Type)
    (mem : List (JStr × V)) (disk : JStr → DiskRead V)
    (qs qd : Option JStr) (lang today : JStr) :
    (cacheDailyGetHandler mem disk qs qd lang today).composerInvoked = false ∧
    (mem.lookup (cacheKey (qd.getD today) (toLowerJs (qs.getD (str "aries"))) lang) = none →
      disk (cacheFilePathOf (qd.getD today) (toLowerJs (qs.getD (str "aries"))) lang) = .missing →
      (cacheDailyGetHandler mem disk qs qd lang today).resp =
        .missResp (qd.getD today) (toLowerJs (qs.getD (str "aries"))) lang ∧
      ((cacheDailyGetHandler mem disk qs qd lang today).resp).status = 404 ∧
      (cacheDailyGetHandler mem disk qs qd lang today).memAfter = mem) ∧
    (mem.lookup (cacheKey (qd.getD today) (toLowerJs (qs.getD (str "aries"))) lang) = none →
      ∀ (rich : Option V) (whole : V),
      disk (cacheFilePathOf (qd.getD today) (toLowerJs (qs.getD (str "aries"))) lang) = .ok rich whole →
      (cacheDailyGetHandler mem disk qs qd lang today).resp = .hitResp (rich.getD whole) ∧
      ((cacheDailyGetHandler mem disk qs qd lang today).resp).status = 200 ∧
      (cacheDailyGetHandler mem disk qs qd lang today).memAfter =
        (cacheKey (qd.getD today) (toLowerJs (qs.getD (str "aries"))) lang,
          rich.getD whole) :: mem) := by
  refine ⟨?_, ?_, ?_⟩
  · simp only [cacheDailyGetHandler]
    split
    · rfl
    · split <;> rfl
  · intro hm hd
    simp only [cacheDailyGetHandler]
    rw [hm, hd]
    exact ⟨rfl, rfl, rfl⟩
  · intro hm rich whole hd
    simp only [cacheDailyGetHandler]
    rw [hm, hd]
    exact ⟨rfl, rfl, rfl⟩

/-- Witness for `cacheDailyRoute_miss_and_diskHit`: with an empty memory
map, a missing file yields the 404 miss report with the map unchanged, and
a disk file holding `rich = 42` yields a 200 hit inserted into the map. -/
theorem cacheDailyRoute_miss_and_diskHit_witness :
    ((cacheDailyGetHandler ([] : List (JStr × Nat)) (fun _ => .missing)
        none none (str "en") (str "2025-08-17")).resp =
      .missResp (str "2025-08-17") (str "aries") (str "en") ∧
      ((cacheDailyGetHandler ([] : List (JStr × Nat)) (fun _ => .missing)
        none none (str "en") (str "2025-08-17")).resp).status = 404 ∧
      (cacheDailyGetHandler ([] : List (JStr × Nat)) (fun _ => .missing)
        none none (str "en") (str "2025-08-17")).memAfter = []) ∧
    ((cacheDailyGetHandler ([] : List (JStr × Nat))
        (fun _ => .ok (some 42) 7) none none (str "en") (str "2025-08-17")).resp =
      .hitResp 42) := by
  constructor
  · exact (cacheDailyRoute_miss_and_diskHit Nat [] (fun _ => .missing)
      none none (str "en") (str "2025-08-17")).2.1 rfl rfl
  · exact ((cacheDailyRoute_miss_and_diskHit Nat [] (fun _ => .ok (some 42) 7)
      none none (str "en") (str "2025-08-17")).2.2 rfl (some 42) 7 rfl).1

/-- With no API key configured, the simple translate adapter is the
identity on every input, whatever the (never-issued) external call would
have produced. -/
lemma translateAgentV1_noKey (ext : ExtOutcome) (text tgt : JStr) :
    translateAgentV1 none ext text tgt = text := by
  unfold translateAgentV1
  split
  · rfl
  · split
    · rfl
    · split <;> rfl

/-- C1: `composeDaily` is deterministic.  For fixed `(sign, lang)` and a
fixed instant (its IST parts), (i) two calls with the same collaborators
produce byte-identical `DailyContent`; (ii) the opening line, the 3+3
bullets, the remedy, the lucky line (lucky colour and number) and the
flattened text do not depend on the `panchangAgent()` value, the only
collaborator that reads the wall clock instead of `now`; and (iii) with no
external credential configured the record does not depend on the outcome
of the (bypassed) LLM call at all. -/
theorem composeDaily_deterministic (env : ComposeEnv) (p₁ p₂ : VedicSlots)
    (e₁ e₂ : ExtOutcome) (sign lang : JStr) (parts : ISTParts)
    (user : Option UserProfile) :
    composeDaily env sign lang parts user =
        composeDaily env sign lang parts user ∧
    ((composeDaily { env with panchang := p₁ } sign lang parts user).themeLead =
        (composeDaily { env with panchang := p₂ } sign lang parts user).themeLead ∧
      (composeDaily { env with panchang := p₁ } sign lang parts user).sections.opportunities =
        (composeDaily { env with panchang := p₂ } sign lang parts user).sections.opportunities ∧
      (composeDaily { env with panchang := p₁ } sign lang parts user).sections.cautions =
        (composeDaily { env with panchang := p₂ } sign lang parts user).sections.cautions ∧
      (composeDaily { env with panchang := p₁ } sign lang parts user).sections.remedy =
        (composeDaily { env with panchang := p₂ } sign lang parts user).sections.remedy ∧
      (composeDaily { env with panchang := p₁ } sign lang parts user).luckyLine =
        (composeDaily { env with panchang := p₂ } sign lang parts user).luckyLine ∧
      (composeDaily { env with panchang := p₁ } sign lang parts user).text =
        (composeDaily { env with panchang := p₂ } sign lang parts user).text) ∧
    composeDaily { env with apiKey := none, ext := e₁ } sign lang parts user =
      composeDaily { env with apiKey := none, ext := e₂ } sign lang parts user := by
  refine ⟨rfl, ⟨rfl, rfl, rfl, rfl, rfl, rfl⟩, ?_⟩
  simp only [composeDaily, translateAgentV1_noKey]

/-- C8 counterexample: with the external call failing (HTTP 500), the
universal `translateAgent` variant does **not** return the unmodified
input: on input `"Rahu Kaal"` its post-hoc cleanup chain — which runs on
every path, fallback included — rewrites the text to `"राहु काल"`. -/
theorem translate_fallback_modifies_input :
    translateAgentV2 .httpError (str "Rahu Kaal") (str "hi") [] =
        str "राहु काल" ∧
      translateAgentV2 .httpError (str "Rahu Kaal") (str "hi") [] ≠
        str "Rahu Kaal" := by
  decide

/-- C8 amended: both adapters are total (never throw) and never depend on
the failed external call's content.  On any failure — no credential, HTTP
error, thrown fetch, or an empty/malformed completion — the simple variant
returns the input unchanged, while the universal variant returns the input
with at most its fixed local dictionary substitutions applied (exactly the
input, or exactly `lightCleanup` of it). -/
theorem translate_fallback_returns_input (key : Option JStr)
    (ext : ExtOutcome) (text : JStr) :
    (ext.isFailure = true → translateAgentV1 key ext text (str "hi") = text) ∧
    (translateAgentV1 none ext text (str "hi") = text) ∧
    (ext.isFailure = true →
      translateAgentV2 ext text (str "hi") [] = text ∨
      translateAgentV2 ext text (str "hi") [] = lightCleanup text) := by
  refine ⟨?_, translateAgentV1_noKey ext text (str "hi"), ?_⟩
  · intro hf
    unfold translateAgentV1
    split
    · rfl
    · split
      · rfl
      · split
        · rfl
        · cases key with
          | none => rfl
          | some k =>
            cases ext with
            | httpError => rfl
            | thrown => rfl
            | ok content =>
              cases content with
              | none => rfl
              | some c => simp [ExtOutcome.isFailure] at hf
  · intro hf
    unfold translateAgentV2
    simp only [str]
    rw [if_neg (by simp)]
    simp only [List.lookup]
    split
    · exact Or.inl rfl
    · cases ext with
      | httpError => exact Or.inr rfl
      | thrown => exact Or.inr rfl
      | ok content =>
        cases content with
        | none => exact Or.inr rfl
        | some c => simp [ExtOutcome.isFailure] at hf

/-- Witness for `translate_fallback_returns_input` on an HTTP-500 outcome
and the input `"hello"`. -/
theorem translate_fallback_returns_input_witness :
    translateAgentV1 (some (str "k")) .httpError (str "hello") (str "hi") =
        str "hello" ∧
      (translateAgentV2 .httpError (str "hello") (str "hi") [] = str "hello" ∨
        translateAgentV2 .httpError (str "hello") (str "hi") [] =
          lightCleanup (str "hello")) :=
  ⟨(translate_fallback_returns_input (some (str "k")) .httpError
      (str "hello")).1 (by decide),
   (translate_fallback_returns_input (some (str "k")) .httpError
      (str "hello")).2.2 (by decide)⟩

/-! ## Full-period property of the `pickN` LCG

The LCG `k ↦ (1664525 k + 1013904223) mod 2^32` satisfies the Hull–Dobell
conditions (`c` odd, `a ≡ 1 mod 4`), so it is a single `2^32`-cycle on the
32-bit values: from any start every 32-bit value appears within `2^32`
steps.  This is what makes the `pickN` selection loop terminate and reach
every index.  The proof goes through the 2-adic valuation of the geometric
sums `T d = Σ_{i<d} a^i`: `ν₂(T d) = ν₂ d`, so `2^32 ∤ T d` for
`0 < d < 2^32`, which makes the iterates pairwise distinct. -/

/-- Geometric sum `Σ_{i<n} 1664525^i` over `ℤ`. -/
def lcgGeom (n : Nat) : ℤ := ∑ i ∈ Finset.range n, (1664525 : ℤ) ^ i

lemma lcgGeom_succ (n : Nat) :
    lcgGeom (n + 1) = 1664525 * lcgGeom n + 1 := by
  simpa [lcgGeom] using geom_sum_succ (x := (1664525 : ℤ)) (n := n)

lemma lcgGeom_add (m n : Nat) :
    lcgGeom (m + n) = lcgGeom m + 1664525 ^ m * lcgGeom n := by
  unfold lcgGeom
  rw [Finset.sum_range_add, Finset.mul_sum]
  congr 1
  refine Finset.sum_congr rfl fun i _ => ?_
  rw [pow_add]

lemma lcgGeom_two_mul (t : Nat) :
    lcgGeom (2 * t) = lcgGeom t * (1 + 1664525 ^ t) := by
  have h2 : 2 * t = t + t := by omega
  rw [h2, lcgGeom_add]
  ring

/-- `T d` is odd for odd `d` (each summand is odd). -/
lemma lcgGeom_odd_of_odd (t : Nat) (ht : Odd t) : Odd (lcgGeom t) := by
  rw [← Int.not_even_iff_odd, even_iff_two_dvd]
  intro hdvd
  have h2 : ((lcgGeom t : ℤ) : ZMod 2) = 0 := by
    rw [ZMod.intCast_zmod_eq_zero_iff_dvd]
    exact_mod_cast hdvd
  have hsum : ((lcgGeom t : ℤ) : ZMod 2) = (t : ZMod 2) := by
    unfold lcgGeom
    push_cast
    have ha : (1664525 : ZMod 2) = 1 := by decide
    calc (∑ i ∈ Finset.range t, (1664525 : ZMod 2) ^ i)
        = ∑ i ∈ Finset.range t, 1 := by
          refine Finset.sum_congr rfl fun i _ => ?_
          rw [ha, one_pow]
      _ = (t : ZMod 2) := by simp
  rw [hsum] at h2
  have : (2 : ℕ) ∣ t := by
    rwa [← ZMod.natCast_zmod_eq_zero_iff_dvd]
  rw [Nat.odd_iff] at ht
  omega

/-- `1 + a^t = 2 * (odd)` since `a ≡ 1 (mod 4)`. -/
lemma one_add_pow_eq_two_mul_odd (t : Nat) :
    ∃ v : ℤ, Odd v ∧ (1 : ℤ) + 1664525 ^ t = 2 * v := by
  have hdvd : (4 : ℤ) ∣ (1 + 1664525 ^ t - 2) := by
    have hz : (((1 + 1664525 ^ t - 2 : ℤ)) : ZMod 4) = 0 := by
      push_cast
      have ha : (1664525 : ZMod 4) = 1 := by decide
      rw [ha, one_pow]
      decide
    exact_mod_cast (ZMod.intCast_zmod_eq_zero_iff_dvd _ 4).mp hz
  obtain ⟨q, hq⟩ := hdvd
  refine ⟨2 * q + 1, ⟨q, by ring⟩, by omega⟩

/-- `ν₂(T(2^j t)) = j` for odd `t`: `T(2^j t) = 2^j * (odd)`. -/
lemma lcgGeom_two_pow_mul (j : Nat) :
    ∀ t : Nat, Odd t → ∃ u : ℤ, Odd u ∧ lcgGeom (2 ^ j * t) = 2 ^ j * u := by
  induction j with
  | zero =>
    intro t ht
    exact ⟨lcgGeom t, lcgGeom_odd_of_odd t ht, by simp⟩
  | succ j ih =>
    intro t ht
    obtain ⟨u, hu, hTu⟩ := ih t ht
    obtain ⟨v, hv, hval⟩ := one_add_pow_eq_two_mul_odd (2 ^ j * t)
    have hsplit : 2 ^ (j + 1) * t = 2 * (2 ^ j * t) := by ring
    refine ⟨u * v, hu.mul hv, ?_⟩
    rw [hsplit, lcgGeom_two_mul, hTu, hval]
    ring

/-- For `0 < d < 2^32`, `2^32` does not divide `T d`. -/
lemma lcgGeom_not_dvd (d : Nat) (h0 : 0 < d) (hd : d < M32) :
    ¬ ((M32 : ℤ) ∣ lcgGeom d) := by
  intro hdvd
  obtain ⟨j, t, htodd, hdecomp⟩ :=
    Nat.exists_eq_pow_mul_and_not_dvd (show d ≠ 0 by omega) 2 (by norm_num)
  subst hdecomp
  have htodd' : Odd t := Nat.odd_iff.mpr (by omega)
  obtain ⟨u, hu, hTu⟩ := lcgGeom_two_pow_mul j t htodd'
  have ht1 : 1 ≤ t := by
    rcases Nat.eq_zero_or_pos t with h | h
    · subst h; simp at h0
    · exact h
  have hj : j < 32 := by
    by_contra hge
    push_neg at hge
    have : 2 ^ 32 ≤ 2 ^ j := Nat.pow_le_pow_right (by norm_num) hge
    have h1 : 2 ^ j ≤ 2 ^ j * t := Nat.le_mul_of_pos_right _ ht1
    have : M32 ≤ 2 ^ j * t := by
      calc M32 = 2 ^ 32 := by norm_num
        _ ≤ 2 ^ j := this
        _ ≤ 2 ^ j * t := h1
    omega
  rw [hTu] at hdvd
  have hM : (M32 : ℤ) = 2 ^ j * 2 ^ (32 - j) := by
    have : (M32 : ℤ) = 2 ^ 32 := by norm_num
    rw [this, ← pow_add]
    congr 1
    omega
  rw [hM] at hdvd
  have hcancel : (2 : ℤ) ^ (32 - j) ∣ u :=
    (mul_dvd_mul_iff_left (by positivity : (2 : ℤ) ^ j ≠ 0)).mp hdvd
  have h2u : (2 : ℤ) ∣ u := by
    refine dvd_trans ?_ hcancel
    exact dvd_pow_self 2 (by omega)
  rw [← Int.not_even_iff_odd, even_iff_two_dvd] at hu
  exact hu h2u

instance : NeZero M32 := ⟨by norm_num⟩

/-- The LCG step on `ZMod 2^32`. -/
def lcgZ (x : ZMod M32) : ZMod M32 := 1664525 * x + 1013904223

lemma lcgZ_iterate (t : Nat) (x : ZMod M32) :
    lcgZ^[t] x =
      1664525 ^ t * x + 1013904223 * ((lcgGeom t : ℤ) : ZMod M32) := by
  induction t with
  | zero => simp [lcgGeom]
  | succ t ih =>
    rw [Function.iterate_succ_apply', ih]
    unfold lcgZ
    rw [lcgGeom_succ]
    push_cast
    ring

lemma isUnit_lcgA : IsUnit (1664525 : ZMod M32) :=
  ⟨⟨1664525, 4276115653, by decide, by decide⟩, rfl⟩

/-- `(a - 1) k + c` is odd, hence a unit of `ZMod 2^32`. -/
lemma isUnit_odd_combo (k : ZMod M32) :
    IsUnit (1664524 * k + 1013904223 : ZMod M32) := by
  have hk : ((k.val : ℕ) : ZMod M32) = k := by
    rw [ZMod.natCast_val, ZMod.cast_id]
  have hrepr : (1664524 * k + 1013904223 : ZMod M32) =
      ((1664524 * k.val + 1013904223 : ℕ) : ZMod M32) := by
    push_cast [hk]
    ring
  rw [hrepr, ZMod.isUnit_iff_coprime]
  have hodd : ¬ 2 ∣ (1664524 * k.val + 1013904223) := by omega
  have h2 : Nat.Coprime (1664524 * k.val + 1013904223) 2 :=
    Nat.Coprime.symm ((Nat.prime_two.coprime_iff_not_dvd).mpr hodd)
  have h32 : Nat.Coprime (1664524 * k.val + 1013904223) (2 ^ 32) :=
    h2.pow_right 32
  have hM : (2 : ℕ) ^ 32 = M32 := by norm_num
  rwa [hM] at h32

/-- The `ℤ`-level geometric sum cast into `ZMod 2^32` is the `ZMod`-level
geometric sum. -/
lemma lcgGeom_cast (d : Nat) :
    ((lcgGeom d : ℤ) : ZMod M32) =
      ∑ x ∈ Finset.range d, (1664525 : ZMod M32) ^ x := by
  unfold lcgGeom
  push_cast
  rfl

/-- The first `2^32` iterates of the LCG from any start are pairwise
distinct (full period). -/
lemma lcgZ_iterate_inj (k0 : ZMod M32) {i j : Nat} (hij : i < j)
    (hj : j < M32) : lcgZ^[i] k0 ≠ lcgZ^[j] k0 := by
  intro heq
  have hdpos : 0 < j - i := by omega
  have hdlt : j - i < M32 := by omega
  have hj_eq : j = i + (j - i) := by omega
  rw [lcgZ_iterate, lcgZ_iterate, hj_eq] at heq
  have hTadd : ((lcgGeom (i + (j - i)) : ℤ) : ZMod M32) =
      ((lcgGeom i : ℤ) : ZMod M32) +
        1664525 ^ i * ((lcgGeom (j - i) : ℤ) : ZMod M32) := by
    rw [lcgGeom_add]
    push_cast
    ring
  rw [pow_add, hTadd] at heq
  have key : (1664525 : ZMod M32) ^ i *
      ((1664525 ^ (j - i) - 1) * k0 +
        1013904223 * ((lcgGeom (j - i) : ℤ) : ZMod M32)) = 0 := by
    linear_combination -heq
  have hai : IsUnit ((1664525 : ZMod M32) ^ i) := isUnit_lcgA.pow i
  have key2 : (1664525 ^ (j - i) - 1) * k0 +
      1013904223 * ((lcgGeom (j - i) : ℤ) : ZMod M32) = 0 :=
    (hai.mul_right_eq_zero).mp key
  have hgs := geom_sum_mul (1664525 : ZMod M32) (j - i)
  have key3 : ((lcgGeom (j - i) : ℤ) : ZMod M32) *
      (1664524 * k0 + 1013904223) = 0 := by
    rw [lcgGeom_cast] at key2 ⊢
    linear_combination key2 + k0 * hgs
  have key4 : ((lcgGeom (j - i) : ℤ) : ZMod M32) = 0 :=
    ((isUnit_odd_combo k0).mul_left_eq_zero).mp key3
  have : ((M32 : ℕ) : ℤ) ∣ lcgGeom (j - i) :=
    (ZMod.intCast_zmod_eq_zero_iff_dvd _ M32).mp key4
  exact lcgGeom_not_dvd (j - i) hdpos hdlt (by exact_mod_cast this)

/-- Full period ⇒ from any start, every 32-bit value is reached within
`2^32` steps. -/
lemma lcgZ_iterate_surj (k0 v : ZMod M32) :
    ∃ t : Nat, t < M32 ∧ lcgZ^[t] k0 = v := by
  have hinj : Function.Injective (fun t : Fin M32 => lcgZ^[t.val] k0) := by
    intro a b hab
    rcases lt_trichotomy a.val b.val with h | h | h
    · exact absurd hab (lcgZ_iterate_inj k0 h b.isLt)
    · exact Fin.ext h
    · exact absurd hab.symm (lcgZ_iterate_inj k0 h a.isLt)
  have hbij : Function.Bijective (fun t : Fin M32 => lcgZ^[t.val] k0) := by
    rw [Fintype.bijective_iff_injective_and_card]
    exact ⟨hinj, by rw [Fintype.card_fin, ZMod.card]⟩
  obtain ⟨t, ht⟩ := hbij.surjective v
  exact ⟨t.val, t.isLt, ht⟩

lemma lcgStep_lt (k : Nat) : lcgStep k < M32 :=
  Nat.mod_lt _ (by norm_num)

lemma lcgStep_cast (k : Nat) :
    ((lcgStep k : ℕ) : ZMod M32) = lcgZ (k : ZMod M32) := by
  unfold lcgStep lcgZ
  rw [ZMod.natCast_mod]
  push_cast
  ring

lemma lcgStep_val (x : ZMod M32) : lcgStep x.val = (lcgZ x).val := by
  have h1 : ((lcgStep x.val : ℕ) : ZMod M32) = lcgZ x := by
    rw [lcgStep_cast]
    congr 1
    rw [ZMod.natCast_val, ZMod.cast_id]
  rw [← h1, ZMod.val_cast_of_lt (lcgStep_lt _)]

lemma lcgStep_iterate_val (k : Nat) (hk : k < M32) (t : Nat) :
    lcgStep^[t] k = (lcgZ^[t] (k : ZMod M32)).val := by
  induction t with
  | zero => simp [ZMod.val_cast_of_lt hk]
  | succ t ih =>
    rw [Function.iterate_succ_apply', Function.iterate_succ_apply', ih,
      lcgStep_val]

/-- Coverage: walking the LCG from any 32-bit start, every residue modulo
`len` (`len ≤ 2^32`) appears as an index within `2^32` steps. -/
lemma lcgWalk_coverage (k0 : Nat) (hk : k0 < M32) (len : Nat)
    (hlen : len ≤ M32) (r : Nat) (hr : r < len) :
    ∃ t, t < M32 ∧ (lcgStep^[t] k0) % len = r := by
  obtain ⟨t, htlt, ht⟩ := lcgZ_iterate_surj (k0 : ZMod M32) ((r : ℕ) : ZMod M32)
  refine ⟨t, htlt, ?_⟩
  rw [lcgStep_iterate_val k0 hk, ht, ZMod.val_cast_of_lt (by omega : r < M32)]
  exact Nat.mod_eq_of_lt hr

/-- A nodup list of naturals below `len` of length at least `len` contains
every residue below `len`. -/
lemma mem_of_nodup_bounded_full {acc : List Nat} {len : Nat}
    (hnd : acc.Nodup) (hb : ∀ x ∈ acc, x < len) (hlen : len ≤ acc.length) :
    ∀ r, r < len → r ∈ acc := by
  intro r hr
  have hsub : acc.toFinset ⊆ Finset.range len := by
    intro x hx
    rw [Finset.mem_range]
    exact hb x (List.mem_toFinset.mp hx)
  have hcard : (Finset.range len).card ≤ acc.toFinset.card := by
    rw [Finset.card_range, List.toFinset_card_of_nodup hnd]
    exact hlen
  have heq := Finset.eq_of_subset_of_card_le hsub hcard
  have : r ∈ acc.toFinset := by
    rw [heq, Finset.mem_range]
    exact hr
  exact List.mem_toFinset.mp this

/-- Completion of the `pickN` selection loop: as long as the remaining fuel
still lets the LCG walk reach every not-yet-chosen index (which
`lcgWalk_coverage` guarantees for fuel `2^32`), the loop collects exactly
`target` distinct indices below `len`. -/
lemma pickNIdxAux_spec :
    ∀ (fuel len target k : Nat) (acc : List Nat), 0 < len → target ≤ len →
      acc.Nodup → (∀ x ∈ acc, x < len) → acc.length ≤ target →
      (∀ r, r < len → r ∉ acc → ∃ t, t < fuel ∧ (lcgStep^[t] k) % len = r) →
      (pickNIdxAux len target fuel k acc).length = target ∧
        (pickNIdxAux len target fuel k acc).Nodup ∧
        (∀ x ∈ pickNIdxAux len target fuel k acc, x < len) := by
  intro fuel
  induction fuel with
  | zero =>
    intro len target k acc h0 htl hnd hb hlen hcov
    have hge : target ≤ acc.length := by
      by_contra hlt
      push_neg at hlt
      have hexists : ∃ r, r < len ∧ r ∉ acc := by
        by_contra hall
        push_neg at hall
        have hsub : Finset.range len ⊆ acc.toFinset := fun x hx =>
          List.mem_toFinset.mpr (hall x (Finset.mem_range.mp hx))
        have : len ≤ acc.length := by
          calc len = (Finset.range len).card := (Finset.card_range len).symm
            _ ≤ acc.toFinset.card := Finset.card_le_card hsub
            _ = acc.length := List.toFinset_card_of_nodup hnd
        omega
      obtain ⟨r, hr, hrn⟩ := hexists
      obtain ⟨t, ht0, _⟩ := hcov r hr hrn
      omega
    simp only [pickNIdxAux]
    exact ⟨by omega, hnd, hb⟩
  | succ f ih =>
    intro len target k acc h0 htl hnd hb hlen hcov
    by_cases hc : acc.length < target
    · by_cases hidx : k % len ∈ acc
      · simp only [pickNIdxAux, if_pos hc, if_pos hidx]
        refine ih len target (lcgStep k) acc h0 htl hnd hb (by omega) ?_
        intro r hr hrn
        obtain ⟨t, htf, hteq⟩ := hcov r hr hrn
        cases t with
        | zero =>
          simp only [Function.iterate_zero, id_eq] at hteq
          exact absurd (hteq ▸ hidx) hrn
        | succ t =>
          refine ⟨t, by omega, ?_⟩
          rw [Function.iterate_succ_apply] at hteq
          exact hteq
      · simp only [pickNIdxAux, if_pos hc, if_neg hidx]
        have hklen : k % len < len := Nat.mod_lt _ h0
        refine ih len target (lcgStep k) (acc ++ [k % len]) h0 htl ?_ ?_ ?_ ?_
        · simp [List.nodup_append, hnd, hidx]
        · intro x hx
          rcases List.mem_append.mp hx with h | h
          · exact hb x h
          · simp only [List.mem_singleton] at h
            omega
        · rw [List.length_append, List.length_singleton]
          omega
        · intro r hr hrn
          have hrn' : r ∉ acc := fun hmem => hrn (List.mem_append.mpr (Or.inl hmem))
          have hrne : r ≠ k % len := by
            intro hre
            exact hrn (List.mem_append.mpr (Or.inr (by simp [hre])))
          obtain ⟨t, htf, hteq⟩ := hcov r hr hrn'
          cases t with
          | zero =>
            simp only [Function.iterate_zero, id_eq] at hteq
            exact absurd hteq.symm hrne
          | succ t =>
            refine ⟨t, by omega, ?_⟩
            rw [Function.iterate_succ_apply] at hteq
            exact hteq
    · simp only [pickNIdxAux, if_neg hc]
      exact ⟨by omega, hnd, hb⟩

/-- Once the loop has completed (collected `target` indices), any extra
fuel changes nothing: the fuel-based definition agrees with the unbounded
JS `while` loop. -/
lemma pickNIdxAux_fuel_stable :
    ∀ (fuel len target k : Nat) (acc : List Nat),
      (pickNIdxAux len target fuel k acc).length = target →
      ∀ extra, pickNIdxAux len target (fuel + extra) k acc =
        pickNIdxAux len target fuel k acc := by
  intro fuel
  induction fuel with
  | zero =>
    intro len target k acc hlen extra
    simp only [pickNIdxAux] at hlen ⊢
    cases extra with
    | zero => rfl
    | succ e =>
      have h01 : 0 + (e + 1) = e + 1 := by omega
      rw [h01]
      simp only [pickNIdxAux]
      rw [if_neg (by omega)]
  | succ f ih =>
    intro len target k acc hlen extra
    have hstep : f + 1 + extra = (f + extra) + 1 := by omega
    rw [hstep]
    by_cases hc : acc.length < target
    · simp only [pickNIdxAux, if_pos hc] at hlen ⊢
      exact ih len target (lcgStep k) _ hlen extra
    · simp only [pickNIdxAux, if_neg hc] at hlen ⊢

/-- The selection loop with fuel `2^32` and a fresh accumulator collects
exactly `min n len` distinct indices below `len`. -/
lemma pickNIdx_complete (len n seed : Nat) (h0 : 0 < len)
    (hlen : len ≤ M32) :
    (pickNIdxAux len (min n len) M32 (seed % M32) []).length = min n len ∧
      (pickNIdxAux len (min n len) M32 (seed % M32) []).Nodup ∧
      ∀ x ∈ pickNIdxAux len (min n len) M32 (seed % M32) [], x < len := by
  refine pickNIdxAux_spec M32 len (min n len) (seed % M32) [] h0
    (min_le_right _ _) List.nodup_nil (by simp) (by simp) ?_
  intro r hr _
  exact lcgWalk_coverage (seed % M32) (Nat.mod_lt _ (by norm_num)) len hlen
    r hr

/-- C3: on a pool of at least 3 pairwise-distinct elements (and at most
`2^32` of them, the JS array bound), `pickN(pool, 3, seed)` returns
exactly 3 pairwise-distinct elements, for every seed. -/
theorem pickN_three_distinct {α : Type} [Inhabited α] (arr : List α)
    (seed : Nat) (h3 : 3 ≤ arr.length) (hM : arr.length ≤ M32)
    (hnd : arr.Nodup) :
    (pickN arr 3 seed).length = 3 ∧ (pickN arr 3 seed).Nodup := by
  have h0 : 0 < arr.length := by omega
  have hmin : min 3 arr.length = 3 := by omega
  obtain ⟨hlen', hnd', hb'⟩ := pickNIdx_complete arr.length 3 seed h0 hM
  constructor
  · unfold pickN
    rw [List.length_map, hlen', hmin]
  · unfold pickN
    refine List.Nodup.map_on ?_ hnd'
    intro x hx y hy hxy
    have hxl : x < arr.length := hb' x hx
    have hyl : y < arr.length := hb' y hy
    rw [List.getD_eq_getElem _ _ hxl, List.getD_eq_getElem _ _ hyl] at hxy
    exact (List.Nodup.getElem_inj_iff hnd).mp hxy

/-- Witness for `pickN_three_distinct` on the pool `[0,1,2,3]`. -/
theorem pickN_three_distinct_witness :
    (pickN ([0, 1, 2, 3] : List Nat) 3 123).length = 3 ∧
      (pickN ([0, 1, 2, 3] : List Nat) 3 123).Nodup :=
  pickN_three_distinct [0, 1, 2, 3] 123 (by norm_num) (by norm_num)
    (by decide)

/-- The walk-scan that records each index the first time the LCG walk
produces it (`acc` accumulates indices in first-hit order). -/
def firstHitsAux (len : Nat) : Nat → Nat → List Nat → List Nat
  | 0, _, acc => acc
  | fuel + 1, k, acc =>
    firstHitsAux len fuel (lcgStep k)
      (if k % len ∈ acc then acc else acc ++ [k % len])

/-- The indices below `len`, ordered by the first time the LCG walk from
`k` produces each of them (within `fuel` steps). -/
def firstHitIndices (len fuel k : Nat) : List Nat := firstHitsAux len fuel k []

lemma firstHitsAux_saturated (len : Nat) (h0 : 0 < len) :
    ∀ fuel k acc, (∀ r, r < len → r ∈ acc) →
      firstHitsAux len fuel k acc = acc := by
  intro fuel
  induction fuel with
  | zero => intro k acc _; rfl
  | succ f ih =>
    intro k acc hall
    have hmem : k % len ∈ acc := hall _ (Nat.mod_lt _ h0)
    simp only [firstHitsAux, if_pos hmem]
    exact ih _ _ hall

/-- With `target = len`, the selection loop is exactly the first-hit scan:
the early exit only triggers once every index has been collected, when
further scanning is a no-op anyway. -/
lemma pickNIdxAux_eq_firstHits (len : Nat) (h0 : 0 < len) :
    ∀ fuel k acc, acc.Nodup → (∀ x ∈ acc, x < len) →
      pickNIdxAux len len fuel k acc = firstHitsAux len fuel k acc := by
  intro fuel
  induction fuel with
  | zero => intro k acc _ _; rfl
  | succ f ih =>
    intro k acc hnd hb
    by_cases hc : acc.length < len
    · by_cases hidx : k % len ∈ acc
      · simp only [pickNIdxAux, firstHitsAux, if_pos hc, if_pos hidx]
        exact ih _ _ hnd hb
      · simp only [pickNIdxAux, firstHitsAux, if_pos hc, if_neg hidx]
        refine ih _ _ ?_ ?_
        · simp [List.nodup_append, hnd, hidx]
        · intro x hx
          rcases List.mem_append.mp hx with h | h
          · exact hb x h
          · simp only [List.mem_singleton] at h
            subst h
            exact Nat.mod_lt _ h0
    · push_neg at hc
      have hall := mem_of_nodup_bounded_full hnd hb hc
      simp only [pickNIdxAux, if_neg (by omega : ¬ acc.length < len)]
      rw [firstHitsAux_saturated len h0 (f + 1) k acc hall]

/-- Mapping `i ↦ arr[i]` over `range arr.length` reproduces `arr`. -/
lemma map_getD_range {α : Type} [Inhabited α] (arr : List α) :
    (List.range arr.length).map (fun i => arr.getD i default) = arr := by
  refine List.ext_get ?_ ?_
  · simp
  · intro i h1 h2
    simp only [List.get_eq_getElem, List.getElem_map, List.getElem_range]
    exact List.getD_eq_getElem _ _ h2

/-- C4: for every non-empty pool of at most `2^32` elements (the JS array
bound) and every seed, when `n ≥ pool.length` the selection loop
terminates having returned the whole pool — a permutation of it, with each
position used exactly once — ordered by the first time the LCG walk
produces each index (not necessarily the original order). -/
theorem pickN_exhausts_in_first_hit_order {α : Type} [Inhabited α]
    (arr : List α) (n seed : Nat) (hne : arr ≠ []) (hn : arr.length ≤ n)
    (hM : arr.length ≤ M32) :
    (pickN arr n seed).Perm arr ∧
      pickN arr n seed =
        (firstHitIndices arr.length M32 (seed % M32)).map
          (fun i => arr.getD i default) := by
  have h0 : 0 < arr.length := List.length_pos.mpr hne
  have hmin : min n arr.length = arr.length := by omega
  obtain ⟨hlen', hnd', hb'⟩ := pickNIdx_complete arr.length n seed h0 hM
  constructor
  · have hperm : (pickNIdxAux arr.length (min n arr.length) M32
        (seed % M32) []).Perm (List.range arr.length) := by
      rw [List.perm_ext_iff_of_nodup hnd' (List.nodup_range _)]
      intro a
      constructor
      · intro ha
        rw [List.mem_range]
        exact hb' a ha
      · intro ha
        rw [List.mem_range] at ha
        exact mem_of_nodup_bounded_full hnd' hb'
          (by rw [hlen', hmin]) a ha
    unfold pickN
    have hmapped := hperm.map (fun i => arr.getD i default)
    rw [map_getD_range arr] at hmapped
    exact hmapped
  · unfold pickN firstHitIndices
    rw [hmin, pickNIdxAux_eq_firstHits arr.length h0 M32 (seed % M32) []
      List.nodup_nil (by simp)]

/-- Witness for `pickN_exhausts_in_first_hit_order` on the pool
`[10, 20]` with `n = 5`. -/
theorem pickN_exhausts_witness :
    (pickN ([10, 20] : List Nat) 5 7).Perm [10, 20] ∧
      pickN ([10, 20] : List Nat) 5 7 =
        (firstHitIndices 2 M32 7).map
          (fun i => ([10, 20] : List Nat).getD i default) :=
  pickN_exhausts_in_first_hit_order [10, 20] 5 7 (by decide) (by norm_num)
    (by norm_num)

end AstroBaba
